import Mathlib

set_option linter.unreachableTactic false
set_option linter.unusedTactic false

/-
Verification of the PROCESS plot_proc cross-section geometry engine
(src/process/io/plot_proc.py) against its natural-language specification.

The Python module is shallowly embedded below.  Numeric values are modelled
over a linear ordered field `K` (instantiated at `ℚ` for the accumulator
claims and at `ℝ` for the trigonometric curve claims; the Python source
computes with IEEE floats, which we idealise as exact field arithmetic).
Plotting side effects (matplotlib `fill` / `add_patch` calls) are modelled
as the list of geometric payloads handed to the render sink, in emission
order.
-/

namespace PlotProc

variable {K : Type} [LinearOrderedField K]

/-- Modelled from the spec: the ValueResolver collaborator (`process.io.mfile`,
whose source is not part of the repository snapshot).  `val` is
`m_file.data[name].get_scan(scan)` for a present name, `has` is the
`name in m_file.data` predicate.  Per the spec's *MissingSegment* taxonomy, a
lookup of a missing name reports a diagnostic and contributes nothing (the
accumulation continues with the partial sum), which we model as value `0`
together with the `missing` flag below. -/
structure MFile (K : Type) where
  val : String → K
  has : String → Bool

/-- Modelled from the spec: `m_file.data[s].get_scan(scan)` — the value when
`s` is present, and the non-fatal `0` contribution when it is missing. -/
def MFile.get (m : MFile K) (s : String) : K :=
  if m.has s then m.val s else 0

/-- Whether fetching `s` raises the MissingSegment diagnostic. -/
def MFile.missing (m : MFile K) (s : String) : Bool :=
  !(m.has s)

/-- The fixed ordered radial build sequence `RADIAL_BUILD` of plot_proc.py
(engineering stacking order, bore to outboard TF). -/
def RADIAL_BUILD : List String :=
  ["bore", "ohcth", "precomp", "gapoh", "tfcth", "tftsgap", "thshield_ib",
   "gapds", "d_vv_in", "shldith", "vvblgapi", "blnkith", "fwith", "scrapli",
   "rminori", "rminoro", "scraplo", "fwoth", "blnkoth", "vvblgapo", "shldoth",
   "d_vv_out", "gapsto", "thshield_ob", "tftsgap", "tfthko"]

/-- The fixed ordered `vertical_upper` sequence of plot_proc.py. -/
def vertical_upper : List String :=
  ["rminor*kappa", "vgaptop", "fwtth", "blnktth", "vvblgap", "shldtth",
   "d_vv_top", "vgap2", "thshield_vb", "tftsgap", "tfcth"]

/-- The fixed ordered `vertical_lower` sequence of plot_proc.py. -/
def vertical_lower : List String :=
  ["rminor*kappa", "vgap", "divfix", "shldlth", "d_vv_bot", "vgap2",
   "thshield_vb", "tftsgap", "tfcth"]

/-- The fields of the `PlotData` dataclass consumed by the functions embedded
here (the dataclass has further scalar fields that none of the embedded
geometry uses; `upper`/`lower`/`cumulative_upper`/`cumulative_lower` are the
dictionaries built by `create_radial_build`, modelled as total maps). -/
structure PlotData (K : Type) where
  rminor : K
  vvblgap : K
  d_vv_in : K
  d_vv_out : K
  tfcth : K
  upper : String → K
  lower : String → K
  cumulative_upper : String → K
  cumulative_lower : String → K

/-- One iteration body of the `cumulative_radial_build` loop: the value
fetched for `item` (the if/elif alias chain of plot_proc.py lines 511-520),
paired with whether the fetch raised the MissingSegment diagnostic (only the
final `mfile_data.data[item]` branch can). -/
def crb_step (m : MFile K) (pd : PlotData K) (item : String) : K × Bool :=
  if item == "rminori" || item == "rminoro" then (pd.rminor, false)
  else if item == "vvblgapi" || item == "vvblgapo" then (pd.vvblgap, false)
  else if "d_vv_in".toList <:+: item.toList then (pd.d_vv_in, false)
  else if "d_vv_out".toList <:+: item.toList then (pd.d_vv_out, false)
  else (m.get item, m.missing item)

/-- Result of `cumulative_radial_build`: the running total at the break (or
end), the last fetched `build` value, the `complete` flag, and the names whose
fetch raised the MissingSegment diagnostic, in walk order. -/
structure CRBResult (K : Type) where
  value : K
  build : K
  complete : Bool
  warnings : List String

/-- The `for item in RADIAL_BUILD` loop of `cumulative_radial_build`:
accumulate each (alias-substituted) segment value and break once `section_`
is reached. -/
def crb_loop (m : MFile K) (pd : PlotData K) (section_ : String) :
    List String → K → K → List String → CRBResult K
  | [], cum, b, ws => ⟨cum, b, false, ws⟩
  | item :: rest, cum, _b, ws =>
    let s := crb_step m pd item
    let cum' := cum + s.1
    let ws' := if s.2 then ws ++ [item] else ws
    if item == section_ then ⟨cum', s.1, true, ws'⟩
    else crb_loop m pd section_ rest cum' s.1 ws'

/-- `cumulative_radial_build` run over an arbitrary ordered segment sequence
(the loop is generic in the sequence it walks). -/
def cumulative_radial_build_over (m : MFile K) (pd : PlotData K)
    (seq : List String) (section_ : String) : CRBResult K :=
  crb_loop m pd section_ seq 0 0 []

/-- `cumulative_radial_build(section, ...)` of plot_proc.py, over the fixed
`RADIAL_BUILD` sequence. -/
def cumulative_radial_build (m : MFile K) (pd : PlotData K)
    (section_ : String) : CRBResult K :=
  cumulative_radial_build_over m pd RADIAL_BUILD section_

/-- The `cumulative_build - build` value returned as `previous` under
`with_previous=True`. -/
def CRBResult.previous (r : CRBResult K) : K :=
  r.value - r.build

/-- Whether the `"radial build parameter ... not found"` diagnostic is
printed: exactly when the walk did not complete and `verbose` is set. -/
def crb_notfound_printed (r : CRBResult K) (verbose : Bool) : Bool :=
  !r.complete && verbose

/-- The spec's AliasRule as a pure name-to-key substitution: `rminori` and
`rminoro` resolve to the single key `rminor`, `vvblgapi`/`vvblgapo` to the
single key `vvblgap`, the `d_vv` names to themselves, all other names are
unchanged. -/
def aliasKey (item : String) : String :=
  if item == "rminori" || item == "rminoro" then "rminor"
  else if item == "vvblgapi" || item == "vvblgapo" then "vvblgap"
  else if "d_vv_in".toList <:+: item.toList then "d_vv_in"
  else if "d_vv_out".toList <:+: item.toList then "d_vv_out"
  else item

/-- The value store keyed by substituted name: the four aliased keys live on
the PlotData record, everything else is resolved through the MFile. -/
def store (m : MFile K) (pd : PlotData K) (key : String) : K :=
  if key == "rminor" then pd.rminor
  else if key == "vvblgap" then pd.vvblgap
  else if key == "d_vv_in" then pd.d_vv_in
  else if key == "d_vv_out" then pd.d_vv_out
  else m.get key

/-- A segment's contribution after alias substitution: substitute the name,
then look the key up — the spec's "name→key substitution done before
accumulation". -/
def segval (m : MFile K) (pd : PlotData K) (item : String) : K :=
  store m pd (aliasKey item)

/-- The `vertical_upper` accumulation loop of `create_radial_build`:
`subtotal += value; cumulative_upper[item] = subtotal`, as the association
list of `(item, subtotal)` pairs in insertion order. -/
def build_cum_up (m : MFile K) : List String → K → List (String × K)
  | [], _ => []
  | item :: rest, sub =>
    let sub' := sub + m.get item
    (item, sub') :: build_cum_up m rest sub'

/-- The `vertical_lower` accumulation loop of `create_radial_build`:
`subtotal -= value; cumulative_lower[item] = subtotal`. -/
def build_cum_down (m : MFile K) : List String → K → List (String × K)
  | [], _ => []
  | item :: rest, sub =>
    let sub' := sub - m.get item
    (item, sub') :: build_cum_down m rest sub'

/-- The `upper`/`lower` value dictionaries of `create_radial_build`. -/
def dict_of (m : MFile K) (seq : List String) : List (String × K) :=
  seq.map fun item => (item, m.get item)

/-- `PlotData.create_radial_build`: returns
`(upper, lower, cumulative_upper, cumulative_lower)`. -/
def create_radial_build (m : MFile K) :
    List (String × K) × List (String × K) ×
    List (String × K) × List (String × K) :=
  (dict_of m vertical_upper, dict_of m vertical_lower,
   build_cum_up m vertical_upper 0, build_cum_down m vertical_lower 0)

/-- The `PlotData` dataclass field names, in declaration order
(`cls.__dataclass_fields__` preserves declaration order). -/
def plot_data_field_names : List String :=
  ["bore", "ohcth", "gapoh", "tfcth", "gapds", "ddwi", "shldith", "blnkith",
   "fwith", "scrapli", "rmajor", "rminor", "scraplo", "fwoth", "blnkoth",
   "shldoth", "gapsto", "tfthko", "rdewex", "zdewex", "ddwex", "vvblgap",
   "d_vv_in", "d_vv_out", "fwtth", "n_tf", "wwp1", "wwp2", "dr_tf_wp",
   "tinstf", "thkcas", "casthi", "nbshield", "rtanbeam", "rtanmax", "beamwd",
   "ipedestal", "neped", "nesep", "rhopedn", "rhopedt", "tbeta", "teped",
   "tesep", "alphan", "alphat", "ne0", "te0", "triang", "triang95", "kappa95",
   "alphaj", "q0", "q95", "kallenbach_switch", "ssync", "bt", "vol",
   "pgrossmw", "pthermmw", "htpmw", "pnetelmw", "powfmw", "crypmw",
   "i_single_null", "upper", "cumulative_upper", "lower", "cumulative_lower"]

/-- The magnet-conditional field names `PlotData.mag_cond`. -/
def mag_cond : List String :=
  ["wwp1", "wwp2", "dr_tf_wp", "tinstf", "thkcas", "casthi"]

/-- The build-dictionary field names `PlotData.rad_cond`. -/
def rad_cond : List String :=
  ["upper", "lower", "cumulative_upper", "cumulative_lower"]

/-- The field names `from_mfile` iterates over: the dataclass fields with the
magnet-conditional and build-dictionary names popped. -/
def from_mfile_fields : List String :=
  plot_data_field_names.filter fun v =>
    decide (v ∉ mag_cond ∧ v ∉ rad_cond)

/-- `PlotData.process_tf`: sets the magnet-conditional entries of `data`.
When superconducting (`i_tf_sup == 1`, defaulting to 1 when the flag is
absent) each magnet field is read from the MFile — the `wwp2` integer-turns
conditional assignment is immediately overwritten by the unconditional read,
exactly as in the source loop; otherwise all six are set to `None`. -/
def process_tf_updates [DecidableEq K] (m : MFile K)
    (data : String → Option K) : String → Option K :=
  let i_tf_sup : K := if m.has "i_tf_sup" then m.get "i_tf_sup" else 1
  let i_tf_turns_integer : K :=
    if m.has "i_tf_turns_integer" then m.get "i_tf_turns_integer" else 0
  if i_tf_sup = 1 then
    mag_cond.foldl (fun acc k =>
      let acc1 := if k == "wwp2" then
          Function.update acc k
            (if i_tf_turns_integer = 0 then some (m.get k) else none)
        else acc
      Function.update acc1 k (some (m.get k))) data
  else
    mag_cond.foldl (fun acc k => Function.update acc k none) data

/-- The field-assignment loop of `PlotData.from_mfile`: for every remaining
field name `var`, `data[var] = m_file.data["bore"].get_scan(scan)`, with the
`process_tf` call fired when `var == "n_tf"`.  The resulting `data` mapping
is modelled as a partial map from field name to assigned scalar (the
build-dictionary entries assigned after the loop hold dictionaries, not
scalars, and are outside this map). -/
def from_mfile_map [DecidableEq K] (m : MFile K) : String → Option K :=
  from_mfile_fields.foldl (fun acc var =>
    let acc' := Function.update acc var (some (m.get "bore"))
    if var == "n_tf" then process_tf_updates m acc' else acc')
    (fun _ => none)

/-- The sample angles of `plotdh`: `np.linspace(0, np.pi, 50)`, i.e.
`k·π/49` for `k = 0, …, 49`. -/
noncomputable def plotdh_angs (k : ℕ) : ℝ :=
  k * Real.pi / 49

/-- `plotdh(axis, r0, a, delta, kap)`: half a thin D-section centred on
`z = 0`, returned as the pair of the 50 radial and 50 vertical sample
coordinates `r = r0 + a·cos(θ + δ·sin(1.0·θ))`, `z = κ·a·sin θ`. -/
noncomputable def plotdh (r0 a delta kap : ℝ) : List ℝ × List ℝ :=
  ((List.range 50).map fun k =>
      r0 + a * Real.cos (plotdh_angs k + delta * Real.sin (1 * plotdh_angs k)),
   (List.range 50).map fun k => kap * a * Real.sin (plotdh_angs k))

/-- The first angular range of `plotdhgap`:
`np.linspace(0, π/2 − arc/2, 50)` with `arc = π/4`. -/
noncomputable def plotdhgap_angs1 (k : ℕ) : ℝ :=
  k * (Real.pi / 2 - (Real.pi / 4) / 2) / 49

/-- The second angular range of `plotdhgap`:
`np.linspace(π, π + (π/2 − arc), 50)` with `arc = π/4`. -/
noncomputable def plotdhgap_angs2 (k : ℕ) : ℝ :=
  Real.pi + k * (Real.pi / 2 - Real.pi / 4) / 49

/-- The first stitched point sequence of `plotdhgap` (arcs 1 and 2, outer
forward then inner reversed), as the `(rs, zs)` coordinate lists passed to
`axis.fill`. -/
noncomputable def plotdhgap_fill1 (inpt outpt inthk outthk toppt topthk delta : ℝ) :
    List ℝ × List ℝ :=
  let r01 := (inpt + outpt) / 2
  let r02 := (inpt + inthk + outpt - outthk) / 2
  let a1 := r01 - inpt
  let a2 := r02 - inpt - inthk
  let kap1 := toppt / a1
  let kap2 := (toppt - topthk) / a2
  let rs1 := (List.range 50).map fun k =>
    r01 + a1 * Real.cos (plotdhgap_angs1 k + delta * Real.sin (plotdhgap_angs1 k))
  let zs1 := (List.range 50).map fun k => kap1 * a1 * Real.sin (plotdhgap_angs1 k)
  let rs2 := (List.range 50).map fun k =>
    r02 + a2 * Real.cos (plotdhgap_angs1 k + delta * Real.sin (plotdhgap_angs1 k))
  let zs2 := (List.range 50).map fun k => kap2 * a2 * Real.sin (plotdhgap_angs1 k)
  (rs1 ++ rs2.reverse, zs1 ++ zs2.reverse)

/-- The second stitched point sequence of `plotdhgap` (arcs 3 and 4; the
source fills it with the concatenated `z` array negated). -/
noncomputable def plotdhgap_fill2 (inpt outpt inthk outthk toppt topthk delta : ℝ) :
    List ℝ × List ℝ :=
  let r01 := (inpt + outpt) / 2
  let r02 := (inpt + inthk + outpt - outthk) / 2
  let a1 := r01 - inpt
  let a2 := r02 - inpt - inthk
  let kap1 := toppt / a1
  let kap2 := (toppt - topthk) / a2
  let rs3 := (List.range 50).map fun k =>
    r01 + a1 * Real.cos (plotdhgap_angs2 k + delta * Real.sin (plotdhgap_angs2 k))
  let zs3 := (List.range 50).map fun k => kap1 * a1 * Real.sin (plotdhgap_angs2 k)
  let rs4 := (List.range 50).map fun k =>
    r02 + a2 * Real.cos (plotdhgap_angs2 k + delta * Real.sin (plotdhgap_angs2 k))
  let zs4 := (List.range 50).map fun k => kap2 * a2 * Real.sin (plotdhgap_angs2 k)
  (rs3 ++ rs4.reverse, (zs3 ++ zs4.reverse).map fun z => -z)

/-- `axis.fill(rs, -zs)`: the same radial coordinates with every vertical
coordinate negated — the double-null mirror of a filled shape. -/
noncomputable def mirror_fill (f : List ℝ × List ℝ) : List ℝ × List ℝ :=
  (f.1, f.2.map fun z => -z)

/-- Outer-side centre radius of the vacuum vessel D-sections. -/
noncomputable def vv_radx_outer (m : MFile ℝ) (pd : PlotData ℝ) : ℝ :=
  ((cumulative_radial_build m pd "d_vv_out").value
    + (cumulative_radial_build m pd "gapds").value) / 2

/-- Outer-side horizontal half-width of the vacuum vessel D-sections. -/
noncomputable def vv_rminx_outer (m : MFile ℝ) (pd : PlotData ℝ) : ℝ :=
  ((cumulative_radial_build m pd "d_vv_out").value
    - (cumulative_radial_build m pd "gapds").value) / 2

/-- Inner-side centre radius of the vacuum vessel D-sections. -/
noncomputable def vv_radx_inner (m : MFile ℝ) (pd : PlotData ℝ) : ℝ :=
  ((cumulative_radial_build m pd "shldoth").value
    + (cumulative_radial_build m pd "d_vv_in").value) / 2

/-- Inner-side horizontal half-width of the vacuum vessel D-sections. -/
noncomputable def vv_rminx_inner (m : MFile ℝ) (pd : PlotData ℝ) : ℝ :=
  ((cumulative_radial_build m pd "shldoth").value
    - (cumulative_radial_build m pd "d_vv_in").value) / 2

/-- The explicit upper-half vacuum-vessel shape (single-null branch): outer
and inner D-section halves with upper-table elongations, stitched
outer-forward, inner-reversed. -/
noncomputable def vv_upper_fill (m : MFile ℝ) (pd : PlotData ℝ) : List ℝ × List ℝ :=
  let triang := m.get "triang95"
  let o := plotdh (vv_radx_outer m pd) (vv_rminx_outer m pd) triang
    (pd.cumulative_upper "d_vv_top" / vv_rminx_outer m pd)
  let i := plotdh (vv_radx_inner m pd) (vv_rminx_inner m pd) triang
    ((pd.cumulative_upper "d_vv_top" - pd.upper "d_vv_top") / vv_rminx_inner m pd)
  (o.1 ++ i.1.reverse, o.2 ++ i.2.reverse)

/-- The lower-half vacuum-vessel shape (always drawn): lower-table
elongations. -/
noncomputable def vv_lower_fill (m : MFile ℝ) (pd : PlotData ℝ) : List ℝ × List ℝ :=
  let triang := m.get "triang95"
  let o := plotdh (vv_radx_outer m pd) (vv_rminx_outer m pd) triang
    (pd.cumulative_lower "d_vv_bot" / vv_rminx_outer m pd)
  let i := plotdh (vv_radx_inner m pd) (vv_rminx_inner m pd) triang
    ((pd.cumulative_lower "d_vv_bot" + pd.lower "d_vv_bot") / vv_rminx_inner m pd)
  (o.1 ++ i.1.reverse, o.2 ++ i.2.reverse)

/-- The filled shapes emitted by `plot_vacuum_vessel`, in emission order:
the explicit upper half only under `i_single_null == 1`, the lower half
always, and the mirrored lower half only under `i_single_null == 0`. -/
noncomputable def plot_vacuum_vessel_fills (m : MFile ℝ) (pd : PlotData ℝ) :
    List (List ℝ × List ℝ) :=
  (if m.get "i_single_null" = 1 then [vv_upper_fill m pd] else [])
    ++ [vv_lower_fill m pd]
    ++ (if m.get "i_single_null" = 0 then [mirror_fill (vv_lower_fill m pd)] else [])

/-- Outer-side centre radius of the shield D-sections. -/
noncomputable def sh_radx_outer (m : MFile ℝ) (pd : PlotData ℝ) : ℝ :=
  ((cumulative_radial_build m pd "shldoth").value
    + (cumulative_radial_build m pd "d_vv_in").value) / 2

/-- Outer-side horizontal half-width of the shield D-sections. -/
noncomputable def sh_rminx_outer (m : MFile ℝ) (pd : PlotData ℝ) : ℝ :=
  ((cumulative_radial_build m pd "shldoth").value
    - (cumulative_radial_build m pd "d_vv_in").value) / 2

/-- Inner-side centre radius of the shield D-sections. -/
noncomputable def sh_radx_inner (m : MFile ℝ) (pd : PlotData ℝ) : ℝ :=
  ((cumulative_radial_build m pd "vvblgapo").value
    + (cumulative_radial_build m pd "shldith").value) / 2

/-- Inner-side horizontal half-width of the shield D-sections. -/
noncomputable def sh_rminx_inner (m : MFile ℝ) (pd : PlotData ℝ) : ℝ :=
  ((cumulative_radial_build m pd "vvblgapo").value
    - (cumulative_radial_build m pd "shldith").value) / 2

/-- The explicit upper-half shield shape (single-null branch). -/
noncomputable def sh_upper_fill (m : MFile ℝ) (pd : PlotData ℝ) : List ℝ × List ℝ :=
  let triang := m.get "triang95"
  let o := plotdh (sh_radx_outer m pd) (sh_rminx_outer m pd) triang
    (pd.cumulative_upper "shldtth" / sh_rminx_outer m pd)
  let i := plotdh (sh_radx_inner m pd) (sh_rminx_inner m pd) triang
    (pd.cumulative_upper "vvblgap" / sh_rminx_inner m pd)
  (o.1 ++ i.1.reverse, o.2 ++ i.2.reverse)

/-- The lower-half shield shape (always drawn). -/
noncomputable def sh_lower_fill (m : MFile ℝ) (pd : PlotData ℝ) : List ℝ × List ℝ :=
  let triang := m.get "triang95"
  let o := plotdh (sh_radx_outer m pd) (sh_rminx_outer m pd) triang
    (pd.cumulative_lower "shldlth" / sh_rminx_outer m pd)
  let i := plotdh (sh_radx_inner m pd) (sh_rminx_inner m pd) triang
    (pd.cumulative_lower "divfix" / sh_rminx_inner m pd)
  (o.1 ++ i.1.reverse, o.2 ++ i.2.reverse)

/-- The filled shapes emitted by `plot_shield`, in emission order. -/
noncomputable def plot_shield_fills (m : MFile ℝ) (pd : PlotData ℝ) :
    List (List ℝ × List ℝ) :=
  (if m.get "i_single_null" = 1 then [sh_upper_fill m pd] else [])
    ++ [sh_lower_fill m pd]
    ++ (if m.get "i_single_null" = 0 then [mirror_fill (sh_lower_fill m pd)] else [])

/-- The ten anchor coordinates of `plot_tf_coils`.  Both the `x` and the `y`
tuples are read from `xarc(1)..xarc(5)` in the source. -/
structure TFAnchors where
  x1 : ℝ
  x2 : ℝ
  x3 : ℝ
  x4 : ℝ
  x5 : ℝ
  y1 : ℝ
  y2 : ℝ
  y3 : ℝ
  y4 : ℝ
  y5 : ℝ

/-- The anchor reads of `plot_tf_coils` (lines 1606-1611). -/
noncomputable def tf_anchors (m : MFile ℝ) : TFAnchors :=
  ⟨m.get "xarc(1)", m.get "xarc(2)", m.get "xarc(3)", m.get "xarc(4)",
   m.get "xarc(5)",
   m.get "xarc(1)", m.get "xarc(2)", m.get "xarc(3)", m.get "xarc(4)",
   m.get "xarc(5)"⟩

/-- The `yarc(i)` resolver variable names (never read by `plot_tf_coils`). -/
def yarc_keys : List String :=
  ["yarc(1)", "yarc(2)", "yarc(3)", "yarc(4)", "yarc(5)"]

/-- Whether `plot_tf_coils` prints the warning about `yarc(3)` being
nonzero: `if y3 != 0`. -/
def tf_yarc_warning_printed (m : MFile ℝ) : Prop :=
  (tf_anchors m).y3 ≠ 0

/-- A drawn TF-coil element: an axis-aligned rectangle (corner, width,
height) or an `ellips_fill` patch recorded by its eight parameters. -/
inductive TFPatch where
  | rect (corner : ℝ × ℝ) (width height : ℝ)
  | ellips (a1 a2 b1 b2 x0 y0 ang1 ang2 : ℝ)

/-- The drawn elements of `plot_tf_coils`, in emission order: four rectangles
in the picture-frame branch (`i_tf_shape == 2`), four `ellips_fill` sectors
plus the vertical-leg rectangle in the D-shape branch. -/
noncomputable def plot_tf_coils_patches (m : MFile ℝ) (pd : PlotData ℝ) :
    List TFPatch :=
  let A := tf_anchors m
  let tfcth := pd.tfcth
  let rt : ℝ := Real.pi / 2
  let rt2 := 2 * rt
  let i_tf_shape : ℝ := if m.has "i_tf_shape" then m.get "i_tf_shape" else 1
  if i_tf_shape = 2 then
    [TFPatch.rect (A.x5 - tfcth, A.y5 - tfcth) tfcth (A.y1 - A.y5 + 2 * tfcth),
     TFPatch.rect (A.x4, A.y4 - tfcth) tfcth (A.y2 - A.y4 + 2 * tfcth),
     TFPatch.rect (A.x5, A.y5 - tfcth) (A.x4 - A.x5) tfcth,
     TFPatch.rect (A.x1, A.y1) (A.x2 - A.x1) tfcth]
  else
    [TFPatch.ellips (A.x2 - A.x1) (A.x2 - A.x1 + tfcth) (A.y2 - A.y1)
       (A.y2 - A.y1 + tfcth) A.x2 A.y1 rt rt2,
     TFPatch.ellips (A.x3 - A.x2) (A.x3 - A.x2 + tfcth) A.y2 (A.y2 + tfcth)
       A.x2 0 0 rt,
     TFPatch.ellips (A.x4 - A.x5) (A.x4 - A.x5 + tfcth) (A.y5 - A.y4)
       (A.y5 - A.y4 + tfcth) A.x4 A.y5 (-rt) (-rt2),
     TFPatch.ellips (A.x3 - A.x2) (A.x3 - A.x2 + tfcth) (-A.y4) (tfcth - A.y4)
       A.x4 0 0 (-rt),
     TFPatch.rect (A.x5 - tfcth, A.y5) tfcth (A.y1 - A.y5)]

/-- Concrete MFile over ℚ: every variable present with value 1. -/
def mQ1 : MFile ℚ :=
  ⟨fun _ => 1, fun _ => true⟩

/-- Concrete MFile over ℚ with the segment `seg3` absent. -/
def mQseg3 : MFile ℚ :=
  ⟨fun _ => 1, fun s => !(s == "seg3")⟩

/-- Concrete PlotData over ℚ: all scalar fields 1, all tables constantly 1. -/
def pdQ1 : PlotData ℚ :=
  ⟨1, 1, 1, 1, 1, fun _ => 1, fun _ => 1, fun _ => 1, fun _ => 1⟩

/-- Concrete MFile over ℝ that sets `i_single_null` to `c` and every other
variable to 1. -/
noncomputable def mRflag (c : ℝ) : MFile ℝ :=
  ⟨fun s => if s = "i_single_null" then c else 1, fun _ => true⟩

/-- Concrete MFile over ℝ: every variable present with value 1. -/
noncomputable def mR1 : MFile ℝ :=
  ⟨fun _ => 1, fun _ => true⟩

/-- Concrete PlotData over ℝ: all scalar fields 1, all tables constantly 1. -/
noncomputable def pdR1 : PlotData ℝ :=
  ⟨1, 1, 1, 1, 1, fun _ => 1, fun _ => 1, fun _ => 1, fun _ => 1⟩

/-- Walking the whole sequence without meeting `section_` accumulates every
segment value and leaves the `complete` flag unset. -/
theorem crb_loop_not_found (m : MFile K) (pd : PlotData K) (s : String) :
    ∀ (seq : List String), s ∉ seq → ∀ (cum b : K) (ws : List String),
    (crb_loop m pd s seq cum b ws).value
        = cum + (seq.map fun it => (crb_step m pd it).1).sum
    ∧ (crb_loop m pd s seq cum b ws).complete = false := by
  intro seq
  induction seq with
  | nil => intro _ cum b ws; constructor <;> simp [crb_loop]
  | cons item rest ih =>
    intro h cum b ws
    simp only [List.mem_cons, not_or] at h
    have hb : (item == s) = false := by
      simp only [beq_eq_false_iff_ne]
      exact fun he => h.1 (he.symm)
    obtain ⟨ihv, ihc⟩ := ih h.2 (cum + (crb_step m pd item).1)
      (crb_step m pd item).1
      (if (crb_step m pd item).2 then ws ++ [item] else ws)
    constructor
    · simp only [crb_loop, hb, Bool.false_eq_true, if_false, ihv,
        List.map_cons, List.sum_cons]
      ring
    · simp only [crb_loop, hb, Bool.false_eq_true, if_false, ihc]

/-- Reaching `section_` stops the walk: the value is the running sum of the
prefix up to and including the first occurrence of `section_`. -/
theorem crb_loop_found (m : MFile K) (pd : PlotData K) (s : String) :
    ∀ (seq : List String), s ∈ seq → ∀ (cum b : K) (ws : List String),
    (crb_loop m pd s seq cum b ws).value
        = cum + ((seq.take (seq.indexOf s + 1)).map
            fun it => (crb_step m pd it).1).sum
    ∧ (crb_loop m pd s seq cum b ws).complete = true := by
  intro seq
  induction seq with
  | nil => intro h; cases h
  | cons item rest ih =>
    intro h cum b ws
    by_cases he : item = s
    · subst he
      constructor
      · simp [crb_loop, List.indexOf_cons_self]
      · simp [crb_loop]
    · have hb : (item == s) = false := by
        simp only [beq_eq_false_iff_ne]; exact he
      have hmem : s ∈ rest := by
        rcases List.mem_cons.1 h with h' | h'
        · exact absurd h'.symm he
        · exact h'
      have hidx : (item :: rest).indexOf s = rest.indexOf s + 1 := by
        simp [List.indexOf_cons, hb]
      obtain ⟨ihv, ihc⟩ := ih hmem (cum + (crb_step m pd item).1)
        (crb_step m pd item).1
        (if (crb_step m pd item).2 then ws ++ [item] else ws)
      constructor
      · simp only [crb_loop, hb, Bool.false_eq_true, if_false, ihv, hidx,
          List.take_succ_cons, List.map_cons, List.sum_cons]
        ring
      · simp only [crb_loop, hb, Bool.false_eq_true, if_false, ihc]

/-- On the names of the fixed radial sequence, the loop body's if/elif alias
chain agrees with substitute-then-look-up. -/
theorem crb_step_eq_segval {m : MFile K} {pd : PlotData K} {item : String}
    (h : item ∈ RADIAL_BUILD) :
    (crb_step m pd item).1 = segval m pd item := by
  simp only [RADIAL_BUILD] at h
  fin_cases h <;> rfl

/-- Every cumulative value produced by the upward accumulation is at least
the starting subtotal, and the produced table is non-decreasing. -/
theorem build_cum_up_ge (m : MFile K) :
    ∀ (seq : List String), (∀ s ∈ seq, 0 ≤ m.get s) → ∀ (start : K),
    (∀ p ∈ build_cum_up m seq start, start ≤ p.2)
    ∧ List.Chain' (fun a b : String × K => a.2 ≤ b.2)
        (build_cum_up m seq start) := by
  intro seq
  induction seq with
  | nil => intro _ start; simp [build_cum_up]
  | cons item rest ih =>
    intro h start
    have hit : 0 ≤ m.get item := h item (List.mem_cons_self _ _)
    have hrest : ∀ s ∈ rest, 0 ≤ m.get s :=
      fun s hs => h s (List.mem_cons_of_mem _ hs)
    obtain ⟨iha, ihc⟩ := ih hrest (start + m.get item)
    constructor
    · intro p hp
      simp only [build_cum_up, List.mem_cons] at hp
      rcases hp with rfl | hp
      · exact le_add_of_nonneg_right hit
      · exact le_trans (le_add_of_nonneg_right hit) (iha p hp)
    · simp only [build_cum_up]
      rw [List.chain'_cons']
      refine ⟨fun q hq => ?_, ihc⟩
      exact iha q (List.mem_of_mem_head? hq)

/-- Every cumulative value produced by the downward accumulation is at most
the starting subtotal, and the produced table is non-increasing. -/
theorem build_cum_down_le (m : MFile K) :
    ∀ (seq : List String), (∀ s ∈ seq, 0 ≤ m.get s) → ∀ (start : K),
    (∀ p ∈ build_cum_down m seq start, p.2 ≤ start)
    ∧ List.Chain' (fun a b : String × K => b.2 ≤ a.2)
        (build_cum_down m seq start) := by
  intro seq
  induction seq with
  | nil => intro _ start; simp [build_cum_down]
  | cons item rest ih =>
    intro h start
    have hit : 0 ≤ m.get item := h item (List.mem_cons_self _ _)
    have hrest : ∀ s ∈ rest, 0 ≤ m.get s :=
      fun s hs => h s (List.mem_cons_of_mem _ hs)
    obtain ⟨iha, ihc⟩ := ih hrest (start - m.get item)
    constructor
    · intro p hp
      simp only [build_cum_down, List.mem_cons] at hp
      rcases hp with rfl | hp
      · exact sub_le_self start hit
      · exact le_trans (iha p hp) (sub_le_self start hit)
    · simp only [build_cum_down]
      rw [List.chain'_cons']
      refine ⟨fun q hq => ?_, ihc⟩
      exact iha q (List.mem_of_mem_head? hq)

/-- `process_tf` writes only the magnet-conditional keys. -/
theorem process_tf_updates_lookup [DecidableEq K] (m : MFile K)
    (data : String → Option K) (v : String) (hv : v ∉ mag_cond) :
    process_tf_updates m data v = data v := by
  have key : ∀ (L : List String), v ∉ L →
      ∀ (body : (String → Option K) → String → (String → Option K)),
      (∀ acc k, k ≠ v → body acc k v = acc v) →
      ∀ (acc : String → Option K), (L.foldl body acc) v = acc v := by
    intro L
    induction L with
    | nil => intro _ _ _ acc; rfl
    | cons k rest ih =>
      intro hL body hbody acc
      simp only [List.mem_cons, not_or] at hL
      rw [List.foldl_cons, ih hL.2 body hbody, hbody acc k (fun he => hL.1 he.symm)]
  have hb1 : ∀ (acc : String → Option K) (k : String), k ≠ v →
      ∀ (w : Option K),
      Function.update (if (k == "wwp2") = true then Function.update acc k w
        else acc) k (some (m.get k)) v = acc v := by
    intro acc k hk w
    rw [Function.update_noteq (Ne.symm hk)]
    by_cases hw : (k == "wwp2") = true
    · rw [if_pos hw, Function.update_noteq (Ne.symm hk)]
    · rw [if_neg hw]
  unfold process_tf_updates
  by_cases hC : (if m.has "i_tf_sup" = true then m.get "i_tf_sup" else 1)
      = (1 : K)
  · rw [if_pos hC]
    exact key mag_cond hv _ (fun acc k hk => hb1 acc k hk _) data
  · rw [if_neg hC]
    exact key mag_cond hv _
      (fun acc k hk => Function.update_noteq (Ne.symm hk) _ _) data

/-- Once a field holds bore's value, the rest of the `from_mfile` loop keeps
it there; a field still ahead in the list will receive bore's value. -/
theorem from_mfile_loop_lookup [DecidableEq K] (m : MFile K) (v : String)
    (hv : v ∉ mag_cond) :
    ∀ (L : List String) (acc : String → Option K),
    (v ∈ L ∨ acc v = some (m.get "bore")) →
    (L.foldl (fun acc var =>
      let acc' := Function.update acc var (some (m.get "bore"))
      if var == "n_tf" then process_tf_updates m acc' else acc') acc) v
      = some (m.get "bore") := by
  intro L
  induction L with
  | nil =>
    intro acc h
    rcases h with h | h
    · cases h
    · exact h
  | cons var rest ih =>
    intro acc h
    rw [List.foldl_cons]
    apply ih
    by_cases he : var = v
    · subst he
      right
      by_cases hn : (var == "n_tf") = true
      · simp only [hn, if_true]
        rw [process_tf_updates_lookup m _ var hv, Function.update_same]
      · simp only [hn, Bool.false_eq_true, if_false]
        rw [Function.update_same]
    · rcases h with h | h
      · rcases List.mem_cons.1 h with h' | h'
        · exact absurd h'.symm he
        · exact Or.inl h'
      · right
        by_cases hn : (var == "n_tf") = true
        · simp only [hn, if_true]
          rw [process_tf_updates_lookup m _ v hv,
            Function.update_noteq (fun h0 => he h0.symm), h]
        · simp only [hn, Bool.false_eq_true, if_false]
          rw [Function.update_noteq (fun h0 => he h0.symm), h]

/-- **C3** (spec-modelled MFile lookup): a named build segment absent from
the resolver is non-fatal for accumulation.  On a 5-segment radial sequence
with segment 3 absent, the walk completes, the cumulative value of segment 5
is the sum of the values of segments 1, 2, 4 and 5, and the MissingSegment
diagnostic for segment 3 is logged — no exception path exists (the
embedding is a total function). -/
theorem missing_segment_partial_sum (m : MFile ℚ) (pd : PlotData ℚ)
    (h1 : m.has "seg1" = true) (h2 : m.has "seg2" = true)
    (h3 : m.has "seg3" = false) (h4 : m.has "seg4" = true)
    (h5 : m.has "seg5" = true) :
    (cumulative_radial_build_over m pd
        ["seg1", "seg2", "seg3", "seg4", "seg5"] "seg5").value
      = m.val "seg1" + m.val "seg2" + m.val "seg4" + m.val "seg5"
    ∧ (cumulative_radial_build_over m pd
        ["seg1", "seg2", "seg3", "seg4", "seg5"] "seg5").warnings = ["seg3"]
    ∧ (cumulative_radial_build_over m pd
        ["seg1", "seg2", "seg3", "seg4", "seg5"] "seg5").complete = true := by
  have e1 : crb_step m pd "seg1" = (m.get "seg1", m.missing "seg1") := rfl
  have e2 : crb_step m pd "seg2" = (m.get "seg2", m.missing "seg2") := rfl
  have e3 : crb_step m pd "seg3" = (m.get "seg3", m.missing "seg3") := rfl
  have e4 : crb_step m pd "seg4" = (m.get "seg4", m.missing "seg4") := rfl
  have e5 : crb_step m pd "seg5" = (m.get "seg5", m.missing "seg5") := rfl
  refine ⟨?_, ?_, ?_⟩ <;>
    simp [cumulative_radial_build_over, crb_loop, e1, e2, e3, e4, e5,
      MFile.get, MFile.missing, h1, h2, h3, h4, h5]

/-- **C4**: for every resolver assignment, the cumulative radial build at
the last segment `tfthko` is the sum of all (alias-substituted) segment
values; a section absent from the sequence yields that same full total
without raising, and the "not found" diagnostic is printed exactly when
`verbose` is set. -/
theorem radial_build_full_total (m : MFile ℚ) (pd : PlotData ℚ)
    (s : String) (verbose : Bool) (hs : s ∉ RADIAL_BUILD) :
    (cumulative_radial_build m pd "tfthko").value
        = (RADIAL_BUILD.map (segval m pd)).sum
    ∧ (cumulative_radial_build m pd s).value
        = (RADIAL_BUILD.map (segval m pd)).sum
    ∧ crb_notfound_printed (cumulative_radial_build m pd s) verbose
        = verbose := by
  have hmap : (RADIAL_BUILD.map fun it => (crb_step m pd it).1)
      = RADIAL_BUILD.map (segval m pd) :=
    List.map_congr_left fun it hit => crb_step_eq_segval hit
  have hnf := crb_loop_not_found m pd s RADIAL_BUILD hs 0 0 []
  refine ⟨?_, ?_, ?_⟩
  · have h := crb_loop_found m pd "tfthko" RADIAL_BUILD (by decide) 0 0 []
    have hidx : RADIAL_BUILD.indexOf "tfthko" = 25 := by decide
    have htake : RADIAL_BUILD.take 26 = RADIAL_BUILD := by decide
    rw [cumulative_radial_build, cumulative_radial_build_over] at *
    rw [h.1, hidx, htake, hmap, zero_add]
  · rw [cumulative_radial_build, cumulative_radial_build_over] at *
    rw [hnf.1, hmap, zero_add]
  · rw [cumulative_radial_build, cumulative_radial_build_over] at *
    rw [crb_notfound_printed, hnf.2]
    cases verbose <;> rfl

/-- **C9**: alias substitution is a pure name-to-key substitution performed
before accumulation, leaving the accumulation order unchanged: `rminori`
and `rminoro` both contribute the single minor-radius value, `vvblgapi` and
`vvblgapo` both contribute the single shared gap value, the loop body equals
substitute-then-look-up on every sequence name, and the cumulative value at
any section is the in-order prefix sum of substituted values. -/
theorem alias_substitution_pre_accumulation (m : MFile ℚ) (pd : PlotData ℚ)
    (s : String) (hs : s ∈ RADIAL_BUILD) :
    segval m pd "rminori" = pd.rminor
    ∧ segval m pd "rminoro" = pd.rminor
    ∧ segval m pd "vvblgapi" = pd.vvblgap
    ∧ segval m pd "vvblgapo" = pd.vvblgap
    ∧ (∀ item ∈ RADIAL_BUILD, (crb_step m pd item).1 = segval m pd item)
    ∧ (cumulative_radial_build m pd s).value
        = ((RADIAL_BUILD.take (RADIAL_BUILD.indexOf s + 1)).map
            (segval m pd)).sum := by
  refine ⟨rfl, rfl, rfl, rfl, fun item hit => crb_step_eq_segval hit, ?_⟩
  have h := crb_loop_found m pd s RADIAL_BUILD hs 0 0 []
  have hmap : ((RADIAL_BUILD.take (RADIAL_BUILD.indexOf s + 1)).map
        fun it => (crb_step m pd it).1)
      = (RADIAL_BUILD.take (RADIAL_BUILD.indexOf s + 1)).map (segval m pd) :=
    List.map_congr_left fun it hit =>
      crb_step_eq_segval (List.take_subset _ _ hit)
  rw [cumulative_radial_build, cumulative_radial_build_over, h.1, hmap,
    zero_add]

/-- **C7**: with non-negative vertical segment values, the cumulative_upper
table built by `create_radial_build` is non-negative and non-decreasing
along the vertical-upper sequence, and the cumulative_lower table is
non-positive and non-increasing along the vertical-lower sequence. -/
theorem vertical_cumulative_monotonicity (m : MFile ℚ)
    (hu : ∀ s ∈ vertical_upper, 0 ≤ m.get s)
    (hl : ∀ s ∈ vertical_lower, 0 ≤ m.get s) :
    (∀ p ∈ (create_radial_build m).2.2.1, 0 ≤ p.2)
    ∧ List.Chain' (fun a b : String × ℚ => a.2 ≤ b.2)
        (create_radial_build m).2.2.1
    ∧ (∀ p ∈ (create_radial_build m).2.2.2, p.2 ≤ 0)
    ∧ List.Chain' (fun a b : String × ℚ => b.2 ≤ a.2)
        (create_radial_build m).2.2.2 := by
  obtain ⟨ha, hc⟩ := build_cum_up_ge m vertical_upper hu 0
  obtain ⟨hd, he⟩ := build_cum_down_le m vertical_lower hl 0
  exact ⟨ha, hc, hd, he⟩

/-- **C2**: in `PlotData.from_mfile`, every scalar field that is neither
magnet-conditional nor a build-dictionary field is assigned the resolver
value of `bore`, regardless of the field's own name — in particular
`rmajor`, `rminor`, `triang` and `tfcth`. -/
theorem from_mfile_every_field_gets_bore (m : MFile ℚ) (v : String)
    (hv : v ∈ from_mfile_fields) :
    from_mfile_map m v = some (m.get "bore")
    ∧ from_mfile_map m "rmajor" = some (m.get "bore")
    ∧ from_mfile_map m "rminor" = some (m.get "bore")
    ∧ from_mfile_map m "triang" = some (m.get "bore")
    ∧ from_mfile_map m "tfcth" = some (m.get "bore") := by
  have hmain : ∀ w : String, w ∈ from_mfile_fields →
      from_mfile_map m w = some (m.get "bore") := by
    intro w hw
    have hwm : w ∉ mag_cond := by
      have := (List.mem_filter.1 hw).2
      exact (of_decide_eq_true this).1
    exact from_mfile_loop_lookup m w hwm from_mfile_fields _ (Or.inl hw)
  exact ⟨hmain v hv, hmain "rmajor" (by decide), hmain "rminor" (by decide),
    hmain "triang" (by decide), hmain "tfcth" (by decide)⟩

/-- Witness for `missing_segment_partial_sum` at the concrete resolver with
`seg3` absent and all other values 1. -/
theorem missing_segment_partial_sum_holds :
    mQseg3.has "seg1" = true ∧ mQseg3.has "seg2" = true
    ∧ mQseg3.has "seg3" = false ∧ mQseg3.has "seg4" = true
    ∧ mQseg3.has "seg5" = true
    ∧ (cumulative_radial_build_over mQseg3 pdQ1
        ["seg1", "seg2", "seg3", "seg4", "seg5"] "seg5").value
      = mQseg3.val "seg1" + mQseg3.val "seg2" + mQseg3.val "seg4"
        + mQseg3.val "seg5" :=
  ⟨by decide, by decide, by decide, by decide, by decide,
   (missing_segment_partial_sum mQseg3 pdQ1 (by decide) (by decide)
     (by decide) (by decide) (by decide)).1⟩

/-- Witness for `radial_build_full_total` at the all-ones resolver and the
absent section name `plasma`. -/
theorem radial_build_full_total_holds :
    "plasma" ∉ RADIAL_BUILD
    ∧ (cumulative_radial_build mQ1 pdQ1 "tfthko").value
        = (RADIAL_BUILD.map (segval mQ1 pdQ1)).sum
    ∧ (cumulative_radial_build mQ1 pdQ1 "plasma").value
        = (RADIAL_BUILD.map (segval mQ1 pdQ1)).sum
    ∧ crb_notfound_printed (cumulative_radial_build mQ1 pdQ1 "plasma") true
        = true :=
  ⟨by decide, radial_build_full_total mQ1 pdQ1 "plasma" true (by decide)⟩

/-- Witness for `alias_substitution_pre_accumulation` at the all-ones
resolver and the section `rminoro`. -/
theorem alias_substitution_pre_accumulation_holds :
    "rminoro" ∈ RADIAL_BUILD
    ∧ (segval mQ1 pdQ1 "rminori" = pdQ1.rminor
      ∧ segval mQ1 pdQ1 "rminoro" = pdQ1.rminor
      ∧ segval mQ1 pdQ1 "vvblgapi" = pdQ1.vvblgap
      ∧ segval mQ1 pdQ1 "vvblgapo" = pdQ1.vvblgap
      ∧ (∀ item ∈ RADIAL_BUILD,
          (crb_step mQ1 pdQ1 item).1 = segval mQ1 pdQ1 item)
      ∧ (cumulative_radial_build mQ1 pdQ1 "rminoro").value
          = ((RADIAL_BUILD.take (RADIAL_BUILD.indexOf "rminoro" + 1)).map
              (segval mQ1 pdQ1)).sum) :=
  ⟨by decide,
   alias_substitution_pre_accumulation mQ1 pdQ1 "rminoro" (by decide)⟩

/-- Witness for `vertical_cumulative_monotonicity` at the all-ones
resolver. -/
theorem vertical_cumulative_monotonicity_holds :
    (∀ s ∈ vertical_upper, 0 ≤ mQ1.get s)
    ∧ (∀ s ∈ vertical_lower, 0 ≤ mQ1.get s)
    ∧ ((∀ p ∈ (create_radial_build mQ1).2.2.1, 0 ≤ p.2)
      ∧ List.Chain' (fun a b : String × ℚ => a.2 ≤ b.2)
          (create_radial_build mQ1).2.2.1
      ∧ (∀ p ∈ (create_radial_build mQ1).2.2.2, p.2 ≤ 0)
      ∧ List.Chain' (fun a b : String × ℚ => b.2 ≤ a.2)
          (create_radial_build mQ1).2.2.2) :=
  ⟨fun s _ => by norm_num [mQ1, MFile.get],
   fun s _ => by norm_num [mQ1, MFile.get],
   vertical_cumulative_monotonicity mQ1
     (fun s _ => by norm_num [mQ1, MFile.get])
     (fun s _ => by norm_num [mQ1, MFile.get])⟩

/-- Witness for `from_mfile_every_field_gets_bore` at the all-ones resolver
and the field `rmajor`. -/
theorem from_mfile_every_field_gets_bore_holds :
    "rmajor" ∈ from_mfile_fields
    ∧ from_mfile_map mQ1 "rmajor" = some (mQ1.get "bore") :=
  ⟨by decide, (from_mfile_every_field_gets_bore mQ1 "rmajor" (by decide)).1⟩

/-- The 50 `plotdh` sample angles lie in `[0, π]`. -/
theorem plotdh_angs_bounds (k : ℕ) (hk : k ≤ 49) :
    0 ≤ plotdh_angs k ∧ plotdh_angs k ≤ Real.pi := by
  have hk' : (k : ℝ) ≤ 49 := by exact_mod_cast hk
  have hpi := Real.pi_pos
  constructor
  · unfold plotdh_angs; positivity
  · unfold plotdh_angs
    rw [div_le_iff₀ (by norm_num : (0:ℝ) < 49)]
    nlinarith

/-- The head of `map f (range 50) ++ reverse (map g (range 50))` is `f 0`. -/
theorem stitched_head (f g : ℕ → ℝ) :
    ((List.range 50).map f ++ ((List.range 50).map g).reverse).head?
      = some (f 0) := by
  rw [show List.range 50 = 0 :: (List.range 49).map Nat.succ from
    List.range_succ_eq_map 49]
  rfl

/-- The last element of `map f (range 50) ++ reverse (map g (range 50))` is
`g 0`. -/
theorem stitched_last (f g : ℕ → ℝ) :
    ((List.range 50).map f ++ ((List.range 50).map g).reverse).getLast?
      = some (g 0) := by
  conv_lhs =>
    rw [show List.range 50 = 0 :: (List.range 49).map Nat.succ from
      List.range_succ_eq_map 49]
  rw [List.map_cons, List.map_cons, List.reverse_cons, ← List.append_assoc,
    List.getLast?_concat]

/-- Endpoints of the first stitched `plotdhgap` point sequence: it starts at
`(outpt, 0)` and ends at `(outpt − outthk, 0)`. -/
theorem plotdhgap_fill1_ends (i o it ot tp tt d : ℝ) :
    (plotdhgap_fill1 i o it ot tp tt d).1.head? = some o
    ∧ (plotdhgap_fill1 i o it ot tp tt d).1.getLast? = some (o - ot)
    ∧ (plotdhgap_fill1 i o it ot tp tt d).2.head? = some 0
    ∧ (plotdhgap_fill1 i o it ot tp tt d).2.getLast? = some 0 := by
  have ha : plotdhgap_angs1 0 = 0 := by
    simp [plotdhgap_angs1]
  refine ⟨?_, ?_, ?_, ?_⟩
  · rw [show (plotdhgap_fill1 i o it ot tp tt d).1
        = ((List.range 50).map fun k => (i + o) / 2 + ((i + o) / 2 - i)
            * Real.cos (plotdhgap_angs1 k + d * Real.sin (plotdhgap_angs1 k)))
          ++ (((List.range 50).map fun k =>
            (i + it + o - ot) / 2 + ((i + it + o - ot) / 2 - i - it)
            * Real.cos (plotdhgap_angs1 k
              + d * Real.sin (plotdhgap_angs1 k))).reverse) from rfl,
      stitched_head]
    rw [Option.some_inj]
    rw [ha]
    simp [Real.sin_zero, Real.cos_zero]
    ring
  · rw [show (plotdhgap_fill1 i o it ot tp tt d).1
        = ((List.range 50).map fun k => (i + o) / 2 + ((i + o) / 2 - i)
            * Real.cos (plotdhgap_angs1 k + d * Real.sin (plotdhgap_angs1 k)))
          ++ (((List.range 50).map fun k =>
            (i + it + o - ot) / 2 + ((i + it + o - ot) / 2 - i - it)
            * Real.cos (plotdhgap_angs1 k
              + d * Real.sin (plotdhgap_angs1 k))).reverse) from rfl,
      stitched_last]
    rw [Option.some_inj]
    rw [ha]
    simp [Real.sin_zero, Real.cos_zero]
    ring
  · rw [show (plotdhgap_fill1 i o it ot tp tt d).2
        = ((List.range 50).map fun k => tp / ((i + o) / 2 - i)
            * ((i + o) / 2 - i) * Real.sin (plotdhgap_angs1 k))
          ++ (((List.range 50).map fun k =>
            (tp - tt) / ((i + it + o - ot) / 2 - i - it)
            * ((i + it + o - ot) / 2 - i - it)
            * Real.sin (plotdhgap_angs1 k)).reverse) from rfl,
      stitched_head]
    rw [Option.some_inj, ha]
    simp [Real.sin_zero]
  · rw [show (plotdhgap_fill1 i o it ot tp tt d).2
        = ((List.range 50).map fun k => tp / ((i + o) / 2 - i)
            * ((i + o) / 2 - i) * Real.sin (plotdhgap_angs1 k))
          ++ (((List.range 50).map fun k =>
            (tp - tt) / ((i + it + o - ot) / 2 - i - it)
            * ((i + it + o - ot) / 2 - i - it)
            * Real.sin (plotdhgap_angs1 k)).reverse) from rfl,
      stitched_last]
    rw [Option.some_inj, ha]
    simp [Real.sin_zero]

/-- Endpoints of the second stitched `plotdhgap` point sequence: it starts
at `(inpt, 0)` and ends at `(inpt + inthk, 0)`. -/
theorem plotdhgap_fill2_ends (i o it ot tp tt d : ℝ) :
    (plotdhgap_fill2 i o it ot tp tt d).1.head? = some i
    ∧ (plotdhgap_fill2 i o it ot tp tt d).1.getLast? = some (i + it)
    ∧ (plotdhgap_fill2 i o it ot tp tt d).2.head? = some 0
    ∧ (plotdhgap_fill2 i o it ot tp tt d).2.getLast? = some 0 := by
  have ha : plotdhgap_angs2 0 = Real.pi := by
    simp [plotdhgap_angs2]
  refine ⟨?_, ?_, ?_, ?_⟩
  · rw [show (plotdhgap_fill2 i o it ot tp tt d).1
        = ((List.range 50).map fun k => (i + o) / 2 + ((i + o) / 2 - i)
            * Real.cos (plotdhgap_angs2 k + d * Real.sin (plotdhgap_angs2 k)))
          ++ (((List.range 50).map fun k =>
            (i + it + o - ot) / 2 + ((i + it + o - ot) / 2 - i - it)
            * Real.cos (plotdhgap_angs2 k
              + d * Real.sin (plotdhgap_angs2 k))).reverse) from rfl,
      stitched_head]
    rw [Option.some_inj, ha]
    simp [Real.sin_pi, Real.cos_pi]
    try ring
  · rw [show (plotdhgap_fill2 i o it ot tp tt d).1
        = ((List.range 50).map fun k => (i + o) / 2 + ((i + o) / 2 - i)
            * Real.cos (plotdhgap_angs2 k + d * Real.sin (plotdhgap_angs2 k)))
          ++ (((List.range 50).map fun k =>
            (i + it + o - ot) / 2 + ((i + it + o - ot) / 2 - i - it)
            * Real.cos (plotdhgap_angs2 k
              + d * Real.sin (plotdhgap_angs2 k))).reverse) from rfl,
      stitched_last]
    rw [Option.some_inj, ha]
    simp [Real.sin_pi, Real.cos_pi]
    try ring
  · rw [show (plotdhgap_fill2 i o it ot tp tt d).2
        = (((List.range 50).map fun k => tp / ((i + o) / 2 - i)
            * ((i + o) / 2 - i) * Real.sin (plotdhgap_angs2 k))
          ++ (((List.range 50).map fun k =>
            (tp - tt) / ((i + it + o - ot) / 2 - i - it)
            * ((i + it + o - ot) / 2 - i - it)
            * Real.sin (plotdhgap_angs2 k)).reverse)).map (fun z => -z)
        from rfl,
      List.head?_map, stitched_head]
    rw [ha]
    simp [Real.sin_pi]
  · rw [show (plotdhgap_fill2 i o it ot tp tt d).2
        = (((List.range 50).map fun k => tp / ((i + o) / 2 - i)
            * ((i + o) / 2 - i) * Real.sin (plotdhgap_angs2 k))
          ++ (((List.range 50).map fun k =>
            (tp - tt) / ((i + it + o - ot) / 2 - i - it)
            * ((i + it + o - ot) / 2 - i - it)
            * Real.sin (plotdhgap_angs2 k)).reverse)).map (fun z => -z)
        from rfl,
      List.getLast?_map, stitched_last]
    rw [ha]
    simp [Real.sin_pi]

/-- **C5** (amended): for `plotdh` at `r0=9, a=3, δ=1/2, κ=9/5` the
generated points satisfy `6 ≤ r ≤ 12` and `0 ≤ z ≤ 27/5`, with `r = 12`,
`r = 6` and `z = 0` attained; the curve is a half-section, so no point has
negative `z`, and `z = 27/5` is only the supremum of the continuous curve
(the 50 samples skip `θ = π/2`). -/
theorem plotdh_span_9_3 :
    (∀ r ∈ (plotdh 9 3 (1/2) (9/5)).1, 6 ≤ r ∧ r ≤ 12)
    ∧ (∀ z ∈ (plotdh 9 3 (1/2) (9/5)).2, 0 ≤ z ∧ z ≤ 27/5)
    ∧ (12 : ℝ) ∈ (plotdh 9 3 (1/2) (9/5)).1
    ∧ (6 : ℝ) ∈ (plotdh 9 3 (1/2) (9/5)).1
    ∧ (0 : ℝ) ∈ (plotdh 9 3 (1/2) (9/5)).2 := by
  have hz0 : plotdh_angs 0 = 0 := by simp [plotdh_angs]
  have hz49 : plotdh_angs 49 = Real.pi := by
    unfold plotdh_angs
    push_cast
    exact mul_div_cancel_left₀ Real.pi (by norm_num)
  refine ⟨?_, ?_, ?_, ?_, ?_⟩
  · intro r hr
    simp only [plotdh, List.mem_map, List.mem_range] at hr
    obtain ⟨k, hk, rfl⟩ := hr
    obtain ⟨h0, h1⟩ := plotdh_angs_bounds k (Nat.lt_succ_iff.1 hk)
    constructor <;>
      nlinarith [Real.neg_one_le_cos
          (plotdh_angs k + 1 / 2 * Real.sin (1 * plotdh_angs k)),
        Real.cos_le_one
          (plotdh_angs k + 1 / 2 * Real.sin (1 * plotdh_angs k))]
  · intro z hz
    simp only [plotdh, List.mem_map, List.mem_range] at hz
    obtain ⟨k, hk, rfl⟩ := hz
    obtain ⟨h0, h1⟩ := plotdh_angs_bounds k (Nat.lt_succ_iff.1 hk)
    have hs0 := Real.sin_nonneg_of_nonneg_of_le_pi h0 h1
    have hs1 := Real.sin_le_one (plotdh_angs k)
    constructor <;> nlinarith
  · simp only [plotdh, List.mem_map, List.mem_range]
    refine ⟨0, by norm_num, ?_⟩
    rw [hz0]
    norm_num
  · simp only [plotdh, List.mem_map, List.mem_range]
    refine ⟨49, by norm_num, ?_⟩
    rw [hz49]
    rw [one_mul, Real.sin_pi, mul_zero, add_zero, Real.cos_pi]
    norm_num
  · simp only [plotdh, List.mem_map, List.mem_range]
    refine ⟨0, by norm_num, ?_⟩
    rw [hz0]
    norm_num

/-- **C5** counterexample: the claimed lower span endpoint `z = -5.4` is not
among the generated points of `plotdh 9 3 (1/2) (9/5)` — every generated `z`
is non-negative, so the points do not span `z ∈ [-5.4, 5.4]`. -/
theorem plotdh_no_negative_z :
    (-27 / 5 : ℝ) ∉ (plotdh 9 3 (1/2) (9/5)).2 := by
  intro h
  simp only [plotdh, List.mem_map, List.mem_range] at h
  obtain ⟨k, hk, he⟩ := h
  obtain ⟨h0, h1⟩ := plotdh_angs_bounds k (Nat.lt_succ_iff.1 hk)
  have hs := Real.sin_nonneg_of_nonneg_of_le_pi h0 h1
  nlinarith

/-- **C6** (amended): for every triangularity and every parameter set, the
two stitched `plotdhgap` point sequences begin and end on `z = 0` but are
radially open: the first runs from `(outpt, 0)` to `(outpt − outthk, 0)` and
the second from `(inpt, 0)` to `(inpt + inthk, 0)` — the first point equals
the last only in the degenerate zero-thickness case, the drawn polygon being
closed only by the renderer's implicit closing edge. -/
theorem plotdhgap_stitched_endpoints (i o it ot tp tt d : ℝ) :
    (plotdhgap_fill1 i o it ot tp tt d).1.head? = some o
    ∧ (plotdhgap_fill1 i o it ot tp tt d).1.getLast? = some (o - ot)
    ∧ (plotdhgap_fill1 i o it ot tp tt d).2.head? = some 0
    ∧ (plotdhgap_fill1 i o it ot tp tt d).2.getLast? = some 0
    ∧ (plotdhgap_fill2 i o it ot tp tt d).1.head? = some i
    ∧ (plotdhgap_fill2 i o it ot tp tt d).1.getLast? = some (i + it)
    ∧ (plotdhgap_fill2 i o it ot tp tt d).2.head? = some 0
    ∧ (plotdhgap_fill2 i o it ot tp tt d).2.getLast? = some 0 :=
  ⟨(plotdhgap_fill1_ends i o it ot tp tt d).1,
   (plotdhgap_fill1_ends i o it ot tp tt d).2.1,
   (plotdhgap_fill1_ends i o it ot tp tt d).2.2.1,
   (plotdhgap_fill1_ends i o it ot tp tt d).2.2.2,
   (plotdhgap_fill2_ends i o it ot tp tt d).1,
   (plotdhgap_fill2_ends i o it ot tp tt d).2.1,
   (plotdhgap_fill2_ends i o it ot tp tt d).2.2.1,
   (plotdhgap_fill2_ends i o it ot tp tt d).2.2.2⟩

/-- **C6** counterexample: at `inpt=1, outpt=5, inthk=outthk=1/2, toppt=4,
topthk=1/4, δ=1/2` (a triangularity inside `[-1, 1]` with positive
geometrically valid thicknesses) the first stitched sequence starts at
`r = 5` but ends at `r = 9/2`: its first point does not equal its last
point, refuting closure. -/
theorem plotdhgap_not_closed :
    (plotdhgap_fill1 1 5 (1/2) (1/2) 4 (1/4) (1/2)).1.head?
      ≠ (plotdhgap_fill1 1 5 (1/2) (1/2) 4 (1/4) (1/2)).1.getLast? := by
  rw [(plotdhgap_fill1_ends 1 5 (1/2) (1/2) 4 (1/4) (1/2)).1,
    (plotdhgap_fill1_ends 1 5 (1/2) (1/2) 4 (1/4) (1/2)).2.1]
  simp only [ne_eq, Option.some.injEq]
  norm_num

/-- **C1** (amended): topology branching of `plot_vacuum_vessel` and
`plot_shield`.  Flag `0` (double null) emits the lower-half shape and its
mirror across `z = 0`; flag `1` emits one explicit upper-half shape (from
the upper cumulative table) and one explicit lower-half shape, with no
reflection; every other flag value — in particular every negative value —
emits only the lower-half shape, with neither an explicit upper half nor a
reflection. -/
theorem topology_branching (m : MFile ℝ) (pd : PlotData ℝ) :
    (m.get "i_single_null" = 0 →
      plot_vacuum_vessel_fills m pd
          = [vv_lower_fill m pd, mirror_fill (vv_lower_fill m pd)]
      ∧ plot_shield_fills m pd
          = [sh_lower_fill m pd, mirror_fill (sh_lower_fill m pd)])
    ∧ (m.get "i_single_null" = 1 →
      plot_vacuum_vessel_fills m pd
          = [vv_upper_fill m pd, vv_lower_fill m pd]
      ∧ plot_shield_fills m pd
          = [sh_upper_fill m pd, sh_lower_fill m pd])
    ∧ (m.get "i_single_null" ≠ 0 → m.get "i_single_null" ≠ 1 →
      plot_vacuum_vessel_fills m pd = [vv_lower_fill m pd]
      ∧ plot_shield_fills m pd = [sh_lower_fill m pd]) := by
  refine ⟨fun h => ?_, fun h => ?_, fun h0 h1 => ?_⟩
  · constructor <;>
      simp [plot_vacuum_vessel_fills, plot_shield_fills, h, zero_ne_one]
  · constructor <;>
      simp [plot_vacuum_vessel_fills, plot_shield_fills, h, one_ne_zero]
  · constructor <;>
      simp [plot_vacuum_vessel_fills, plot_shield_fills, h0, h1]

/-- **C1** counterexample: with the null-topology flag negative (`-1`), the
vacuum vessel emits a single filled shape — not the one-explicit-upper plus
one-explicit-lower pair (two shapes) that the claim asserts for negative
flags. -/
theorem topology_branching_flag_negative :
    (plot_vacuum_vessel_fills (mRflag (-1)) pdR1).length = 1
    ∧ (plot_vacuum_vessel_fills (mRflag (-1)) pdR1).length ≠ 2 := by
  have hv : (mRflag (-1)).get "i_single_null" = -1 := by
    simp [mRflag, MFile.get]
  constructor <;>
    simp [plot_vacuum_vessel_fills, hv,
      show ((-1 : ℝ) = 1) ↔ False by norm_num,
      show ((-1 : ℝ) = 0) ↔ False by norm_num]

/-- Witness for `topology_branching`, exercising all three branches at the
concrete flags 0, 1 and −1. -/
theorem topology_branching_holds :
    (mRflag 0).get "i_single_null" = 0
    ∧ (mRflag 1).get "i_single_null" = 1
    ∧ (mRflag (-1)).get "i_single_null" ≠ 0
    ∧ (mRflag (-1)).get "i_single_null" ≠ 1
    ∧ plot_vacuum_vessel_fills (mRflag 0) pdR1
        = [vv_lower_fill (mRflag 0) pdR1,
           mirror_fill (vv_lower_fill (mRflag 0) pdR1)]
    ∧ plot_vacuum_vessel_fills (mRflag 1) pdR1
        = [vv_upper_fill (mRflag 1) pdR1, vv_lower_fill (mRflag 1) pdR1]
    ∧ plot_vacuum_vessel_fills (mRflag (-1)) pdR1
        = [vv_lower_fill (mRflag (-1)) pdR1] := by
  have h0 : (mRflag 0).get "i_single_null" = 0 := by simp [mRflag, MFile.get]
  have h1 : (mRflag 1).get "i_single_null" = 1 := by simp [mRflag, MFile.get]
  have hn : (mRflag (-1)).get "i_single_null" = -1 := by
    simp [mRflag, MFile.get]
  refine ⟨h0, h1, by rw [hn]; norm_num, by rw [hn]; norm_num, ?_, ?_, ?_⟩
  · exact ((topology_branching (mRflag 0) pdR1).1 h0).1
  · exact ((topology_branching (mRflag 1) pdR1).2.1 h1).1
  · exact ((topology_branching (mRflag (-1)) pdR1).2.2
      (by rw [hn]; norm_num) (by rw [hn]; norm_num)).1

/-- **C8**: under the double-null flag, the reflected upper-half fill of the
vacuum vessel and of the shield is exactly the lower-half fill with every
`z` coordinate negated pointwise, the radial coordinates being identical
point for point. -/
theorem double_null_mirror (m : MFile ℝ) (pd : PlotData ℝ)
    (h : m.get "i_single_null" = 0) :
    plot_vacuum_vessel_fills m pd
        = [vv_lower_fill m pd, mirror_fill (vv_lower_fill m pd)]
    ∧ plot_shield_fills m pd
        = [sh_lower_fill m pd, mirror_fill (sh_lower_fill m pd)]
    ∧ (mirror_fill (vv_lower_fill m pd)).1 = (vv_lower_fill m pd).1
    ∧ (mirror_fill (vv_lower_fill m pd)).2
        = (vv_lower_fill m pd).2.map (fun z => -z)
    ∧ (mirror_fill (sh_lower_fill m pd)).1 = (sh_lower_fill m pd).1
    ∧ (mirror_fill (sh_lower_fill m pd)).2
        = (sh_lower_fill m pd).2.map (fun z => -z) := by
  refine ⟨?_, ?_, rfl, rfl, rfl, rfl⟩ <;>
    simp [plot_vacuum_vessel_fills, plot_shield_fills, h, zero_ne_one]

/-- Witness for `double_null_mirror` at the concrete double-null resolver. -/
theorem double_null_mirror_holds :
    (mRflag 0).get "i_single_null" = 0
    ∧ plot_vacuum_vessel_fills (mRflag 0) pdR1
        = [vv_lower_fill (mRflag 0) pdR1,
           mirror_fill (vv_lower_fill (mRflag 0) pdR1)]
    ∧ (mirror_fill (vv_lower_fill (mRflag 0) pdR1)).2
        = (vv_lower_fill (mRflag 0) pdR1).2.map (fun z => -z) := by
  have h0 : (mRflag 0).get "i_single_null" = 0 := by simp [mRflag, MFile.get]
  exact ⟨h0, (double_null_mirror (mRflag 0) pdR1 h0).1,
    (double_null_mirror (mRflag 0) pdR1 h0).2.2.2.1⟩

/-- **C10**: `plot_tf_coils` reads its five vertical anchors from the same
`xarc(1)..xarc(5)` variables as the horizontal anchors, so `yᵢ = xᵢ` for
every `i`; the drawn TF-coil geometry is therefore independent of the
`yarc(i)` resolver values (two resolvers differing only on `yarc` keys draw
identical patches), and the printed `yarc(3)` warning fires exactly when
`xarc(3)` is nonzero. -/
theorem tf_coils_yarc_independent (m : MFile ℝ) (n : MFile ℝ)
    (pd : PlotData ℝ)
    (h : ∀ s, s ∉ yarc_keys → m.val s = n.val s ∧ m.has s = n.has s) :
    (tf_anchors m).y1 = (tf_anchors m).x1
    ∧ (tf_anchors m).y2 = (tf_anchors m).x2
    ∧ (tf_anchors m).y3 = (tf_anchors m).x3
    ∧ (tf_anchors m).y4 = (tf_anchors m).x4
    ∧ (tf_anchors m).y5 = (tf_anchors m).x5
    ∧ (tf_yarc_warning_printed m ↔ m.get "xarc(3)" ≠ 0)
    ∧ tf_anchors m = tf_anchors n
    ∧ plot_tf_coils_patches m pd = plot_tf_coils_patches n pd := by
  have hget : ∀ s, s ∉ yarc_keys → m.get s = n.get s := by
    intro s hs
    unfold MFile.get
    rw [(h s hs).1, (h s hs).2]
  have hanch : tf_anchors m = tf_anchors n := by
    unfold tf_anchors
    rw [hget "xarc(1)" (by decide), hget "xarc(2)" (by decide),
      hget "xarc(3)" (by decide), hget "xarc(4)" (by decide),
      hget "xarc(5)" (by decide)]
  refine ⟨rfl, rfl, rfl, rfl, rfl, Iff.rfl, hanch, ?_⟩
  unfold plot_tf_coils_patches
  rw [hanch, hget "i_tf_shape" (by decide), (h "i_tf_shape" (by decide)).2]

/-- Witness for `tf_coils_yarc_independent` at the all-ones resolver (taken
for both resolvers, so the agreement hypothesis holds definitionally). -/
theorem tf_coils_yarc_independent_holds :
    (tf_anchors mR1).y3 = (tf_anchors mR1).x3
    ∧ (tf_yarc_warning_printed mR1 ↔ mR1.get "xarc(3)" ≠ 0)
    ∧ plot_tf_coils_patches mR1 pdR1 = plot_tf_coils_patches mR1 pdR1 := by
  have h := tf_coils_yarc_independent mR1 mR1 pdR1 (fun s _ => ⟨rfl, rfl⟩)
  exact ⟨h.2.2.1, h.2.2.2.2.2.1, h.2.2.2.2.2.2.2⟩

/-- Witness for `plotdhgap_stitched_endpoints` at a concrete parameter
set. -/
theorem plotdhgap_stitched_endpoints_holds :
    (plotdhgap_fill1 1 5 (1/2) (1/2) 4 (1/4) (1/2)).1.head? = some 5
    ∧ (plotdhgap_fill1 1 5 (1/2) (1/2) 4 (1/4) (1/2)).1.getLast?
        = some (5 - 1/2)
    ∧ (plotdhgap_fill2 1 5 (1/2) (1/2) 4 (1/4) (1/2)).1.head? = some 1
    ∧ (plotdhgap_fill2 1 5 (1/2) (1/2) 4 (1/4) (1/2)).1.getLast?
        = some (1 + 1/2) :=
  ⟨(plotdhgap_stitched_endpoints 1 5 (1/2) (1/2) 4 (1/4) (1/2)).1,
   (plotdhgap_stitched_endpoints 1 5 (1/2) (1/2) 4 (1/4) (1/2)).2.1,
   (plotdhgap_stitched_endpoints 1 5 (1/2) (1/2) 4 (1/4) (1/2)).2.2.2.2.1,
   (plotdhgap_stitched_endpoints 1 5 (1/2) (1/2) 4 (1/4) (1/2)).2.2.2.2.2.1⟩

end PlotProc
